import Mathlib

/-!
# Verification of the LeafletProvider query facade (GreenWeb.js)

Shallow embedding of `src/xch/providers/leaflet/leaflet_provider.ts`.
Each public operation of the provider is split into the pieces the
implementation itself separates:

* an *input step* — validation performed before any frame is sent,
  producing either an early return or the frame/key that will be sent;
* a *consume predicate* — the `consumeMessage` closure registered with the
  message manager, deciding which inbound frames the operation accepts;
* a *result step* — the computation performed on the consumed packet.

Inbound frames are modelled by the inductive `Message`, one constructor per
wallet-protocol packet shape handled by the provider; the type-code check
`msg.type === ...` followed by `Serializer.deserialize` in the source
corresponds to matching on the constructor (frames are well-formed: the
serializer layer guarantees the type code determines the payload shape).

External collaborators (`AddressUtil`, `ProviderUtil`, the serializer
types) are not part of the analysed sources and are modelled from the
specification, as marked on each definition.
-/

namespace GreenWeb

/-- Modelled from the spec: the wallet-protocol `Coin`
`(parent_coin_info, puzzle_hash, amount)`, with the amount held as an
arbitrary-precision integer (`BigNumber` in the source). Hashes travel as
hex strings in the provider code. -/
structure Coin where
  parentCoinInfo : String
  puzzleHash : String
  amount : Int
  deriving Repr, DecidableEq

/-- Modelled from the spec: the wallet-protocol `CoinState`
`{coin, spent_height : Option, created_height : Option}`. -/
structure CoinState where
  coin : Coin
  spentHeight : Option Nat
  createdHeight : Option Nat
  deriving Repr, DecidableEq

/-- Modelled from the spec: the serializer type `NewPeakWallet`; the
provider only reads its `height` field. -/
structure NewPeakWallet where
  height : Nat
  deriving Repr, DecidableEq

/-- Modelled from the spec: the serializer type `RespondToPhUpdates`
carrying the echoed puzzle-hash list and the coin states. -/
structure RespondToPhUpdates where
  puzzleHashes : List String
  coinStates : List CoinState
  deriving Repr, DecidableEq

/-- Modelled from the spec: the serializer type `RespondToCoinUpdates`. -/
structure RespondToCoinUpdates where
  coinIds : List String
  coinStates : List CoinState
  deriving Repr, DecidableEq

/-- Modelled from the spec: the serializer type `RejectPuzzleSolution`,
keyed by `(coin_name, height)`. -/
structure RejectPuzzleSolution where
  coinName : String
  height : Nat
  deriving Repr, DecidableEq

/-- Modelled from the spec: the serializer type `PuzzleSolutionResponse`
`{coin_name, height, puzzle_reveal, solution}`. -/
structure PuzzleSolutionResponse where
  coinName : String
  height : Nat
  puzzle : String
  solution : String
  deriving Repr, DecidableEq

/-- Modelled from the spec: the serializer type `RespondPuzzleSolution`
wrapping a `PuzzleSolutionResponse`. -/
structure RespondPuzzleSolution where
  response : PuzzleSolutionResponse
  deriving Repr, DecidableEq

/-- Modelled from the spec: the serializer type `RespondChildren` carrying
the list of child coin states. -/
structure RespondChildren where
  coinStates : List CoinState
  deriving Repr, DecidableEq

/-- Modelled from the spec: a header block; the provider reads the embedded
reward-chain height and hands the rest to the translation helper. -/
structure HeaderBlock where
  rewardChainBlockHeight : Nat
  headerHash : String
  prevHeaderHash : String
  deriving Repr, DecidableEq

/-- Modelled from the spec: the serializer type `RejectHeaderRequest`. -/
structure RejectHeaderRequest where
  height : Nat
  deriving Repr, DecidableEq

/-- Modelled from the spec: the serializer type `RespondBlockHeader`. -/
structure RespondBlockHeader where
  headerBlock : HeaderBlock
  deriving Repr, DecidableEq

/-- Modelled from the spec: the serializer type `RejectHeaderBlocks`,
keyed by `(start_height, end_height)`. -/
structure RejectHeaderBlocks where
  startHeight : Nat
  endHeight : Nat
  deriving Repr, DecidableEq

/-- Modelled from the spec: the serializer type `RespondHeaderBlocks`. -/
structure RespondHeaderBlocks where
  startHeight : Nat
  endHeight : Nat
  headerBlocks : List HeaderBlock
  deriving Repr, DecidableEq

/-- Modelled from the spec: the serializer type `RejectRemovalsRequest`,
keyed by `(height, header_hash)`. -/
structure RejectRemovalsRequest where
  height : Nat
  headerHash : String
  deriving Repr, DecidableEq

/-- Modelled from the spec: the serializer type `RespondRemovals`; `coins`
associates coin names with an optional coin. -/
structure RespondRemovals where
  height : Nat
  headerHash : String
  coins : List (String × Option Coin)
  deriving Repr, DecidableEq

/-- Modelled from the spec: the serializer type `RejectAdditionsRequest`. -/
structure RejectAdditionsRequest where
  height : Nat
  headerHash : String
  deriving Repr, DecidableEq

/-- Modelled from the spec: the serializer type `RespondAdditions`; `coins`
associates puzzle hashes with coin lists. -/
structure RespondAdditions where
  height : Nat
  headerHash : String
  coins : List (String × List Coin)
  deriving Repr, DecidableEq

/-- An inbound frame, one constructor per wallet-protocol packet shape the
provider handles. The source checks `msg.type` against
`ProtocolMessageTypes.*` and then deserializes `msg.data`; since the type
code determines the payload shape, a well-formed frame is exactly one of
these constructors. -/
inductive Message where
  | newPeakWallet (pckt : NewPeakWallet)
  | respondToPhUpdates (pckt : RespondToPhUpdates)
  | respondToCoinUpdates (pckt : RespondToCoinUpdates)
  | rejectPuzzleSolution (pckt : RejectPuzzleSolution)
  | respondPuzzleSolution (pckt : RespondPuzzleSolution)
  | respondChildren (pckt : RespondChildren)
  | rejectHeaderRequest (pckt : RejectHeaderRequest)
  | respondBlockHeader (pckt : RespondBlockHeader)
  | rejectHeaderBlocks (pckt : RejectHeaderBlocks)
  | respondHeaderBlocks (pckt : RespondHeaderBlocks)
  | rejectRemovalsRequest (pckt : RejectRemovalsRequest)
  | respondRemovals (pckt : RespondRemovals)
  | rejectAdditionsRequest (pckt : RejectAdditionsRequest)
  | respondAdditions (pckt : RespondAdditions)
  deriving Repr, DecidableEq

/-- The constant `ADDRESS_PREFIX = "xch"` from the source, the bech32m
HRP. -/
def ADDRESS_HRP : String := "xch"

/-- Lower-casing of an ASCII character, used by hash normalization. -/
def lowerChar (c : Char) : Char :=
  if 65 ≤ c.toNat ∧ c.toNat ≤ 90 then Char.ofNat (c.toNat + 32) else c

/-- Removal of a leading `0x` marker from a (lower-cased) hex string. -/
def strip0x : List Char → List Char
  | '0' :: 'x' :: rest => rest
  | l => l

/-- Recognizer for a lower-case hex digit (`0`–`9`, `a`–`f`). -/
def isHexDigitChar (c : Char) : Bool :=
  (48 ≤ c.toNat ∧ c.toNat ≤ 57) ∨ (97 ≤ c.toNat ∧ c.toNat ≤ 102)

/-- Modelled from the spec: `AddressUtil.validateHashString` (the
`AddressCodec` collaborator, not among the analysed sources). It validates
a 32-byte hex hash — lower-cased, with an optional `0x` marker removed —
and "returns empty string on failure", otherwise the normalized hash. -/
def validateHashString (s : String) : String :=
  let t := strip0x (s.data.map lowerChar)
  if t.length = 64 ∧ t.all isHexDigitChar then String.mk t else ""

/-- Boolean string-prefix test over the underlying character lists,
the shallow embedding of `String.prototype.startsWith`. -/
def listIsPrefixOf : List Char → List Char → Bool
  | [], _ => true
  | _ :: _, [] => false
  | a :: as, b :: bs => a = b ∧ listIsPrefixOf as bs

/-- The test `address.startsWith(ADDRESS_PREFIX)` from the source. -/
def strStartsWith (s pre : String) : Bool :=
  listIsPrefixOf pre.data s.data

/-- Public provider data model (`ProviderTypes`): a coin state exposed to
applications. Mirrors the serializer-side `CoinState`. -/
structure ProviderCoinState where
  coin : Coin
  spentHeight : Option Nat
  createdHeight : Option Nat
  deriving Repr, DecidableEq

/-- Modelled from the spec: `ProviderUtil.serializerCoinStateToProviderCoinState`,
the field-for-field translation from the serializer coin state to the
public data model. -/
def serializerCoinStateToProviderCoinState (cs : CoinState) : ProviderCoinState :=
  { coin := cs.coin, spentHeight := cs.spentHeight, createdHeight := cs.createdHeight }

/-- Public provider data model: `PuzzleSolution{coin_name, height,
puzzle_reveal, solution}`. -/
structure PuzzleSolution where
  coinName : String
  height : Nat
  puzzleReveal : String
  solution : String
  deriving Repr, DecidableEq

/-- Modelled from the spec:
`ProviderUtil.serializerPuzzleSolutionResponseToProviderPuzzleSolution`,
the translation from the serializer response to the public type. -/
def serializerPuzzleSolutionResponseToProviderPuzzleSolution
    (r : PuzzleSolutionResponse) : PuzzleSolution :=
  { coinName := r.coinName, height := r.height,
    puzzleReveal := r.puzzle, solution := r.solution }

/-- Public provider data model: `BlockHeader{height, header_hash,
prev_header_hash, ...}`. -/
structure BlockHeader where
  height : Nat
  headerHash : String
  prevHeaderHash : String
  deriving Repr, DecidableEq

/-- Modelled from the spec:
`ProviderUtil.serializerHeaderBlockToProviderBlockHeader hb height` — the
translation receives the height separately from the caller ("response
height for element i is start_height + i") and copies the header fields. -/
def serializerHeaderBlockToProviderBlockHeader (hb : HeaderBlock) (height : Nat) :
    BlockHeader :=
  { height := height, headerHash := hb.headerHash, prevHeaderHash := hb.prevHeaderHash }

/-! ## getBalance (leaflet_provider.ts lines 74–130) -/

/-- Outcome of the pre-send phase of `getBalance`: either the early
`return null` (no frame sent, no filter registered), or the derived
`puzHash` that is placed into the `register_interest_in_puzzle_hash`
frame and captured by the filter predicate. -/
inductive BalanceInput where
  | returnNull
  | send (puzHash : String)
  deriving Repr, DecidableEq

/-- The pre-send phase of `getBalance` (lines 79–102), parameterized by the
external bech32m decoder `addressToPuzzleHash` (which returns the empty
string on decode failure): if `address` is given and starts with the HRP,
decode it and return `null` on failure; else if `puzzleHash` is given,
the result of `validateHashString` is used *without* an emptiness check;
else return `null`. -/
def getBalance_input (addressToPuzzleHash : String → String) :
    Option String → Option String → BalanceInput
  | some addr, puzzleHash =>
    if strStartsWith addr ADDRESS_HRP then
      let puzHash := addressToPuzzleHash addr
      if puzHash.length = 0 then .returnNull else .send puzHash
    else
      match puzzleHash with
      | some ph => .send (validateHashString ph)
      | none => .returnNull
  | none, some ph => .send (validateHashString ph)
  | none, none => .returnNull

/-- The `consumeMessage` closure of `getBalance` (lines 105–116): accept
exactly a `respond_to_ph_update` frame whose `puzzleHashes` list contains
the derived `puzHash`. -/
def getBalance_consume (puzHash : String) : Message → Bool
  | .respondToPhUpdates rPckt => rPckt.puzzleHashes.contains puzHash
  | _ => false

/-- The post-await phase of `getBalance` (lines 114, 119–129): from the
consumed packet, keep the coin states whose coin has puzzle hash that equals
`puzHash`, keep those with `spentHeight == null`, and fold `+ amount`
over a `BigNumber` accumulator starting at `0`. -/
def getBalance_result (puzHash : String) (rPckt : RespondToPhUpdates) : Int :=
  let coinStates := rPckt.coinStates.filter (fun cs => cs.coin.puzzleHash = puzHash)
  let unspentCoins := coinStates.filter (fun cs => cs.spentHeight = none)
  unspentCoins.foldl (fun balance cs => balance + cs.coin.amount) 0

/-! ## connect / getBlockNumber (lines 37–72) -/

/-- The `consumeMessage` closure of the permanent peak-watcher filter
registered by `connect` (lines 41–52): accept exactly `new_peak_wallet`
frames. -/
def peakWatcher_consume : Message → Bool
  | .newPeakWallet _ => true
  | _ => false

/-- The `blockNumber` cache after the peak watcher has consumed, in
arrival order, the frames of `msgs` since `connect`: `null` initially, and
each consumed `new_peak_wallet` overwrites it with the height of the packet
(line 50). -/
def blockNumberAfter (msgs : List Message) : Option Nat :=
  msgs.foldl
    (fun blockNumber msg =>
      match msg with
      | .newPeakWallet pckt => some pckt.height
      | _ => blockNumber)
    none

/-- Operation `getBlockNumber` (lines 70–72): a pure read of the cache; no frame is
built and no filter is registered. -/
def getBlockNumber (blockNumber : Option Nat) : Option Nat :=
  blockNumber

/-! ## subscribeToPuzzleHashUpdates / subscribeToCoinUpdates (lines 132–202) -/

/-- Outcome of the validation phase of a subscription call: either the
silent early return (no frame sent, no filter registered, so the callback
can never be invoked), or registration of the persistent filter keyed by
the validated hash. -/
inductive SubscribeInput where
  | noop
  | register (key : String)
  deriving Repr, DecidableEq

/-- The validation phase of `subscribeToPuzzleHashUpdates` (lines
133–134): re-assign `puzzleHash := validateHashString puzzleHash` and
return silently when it is empty. -/
def subscribeToPuzzleHashUpdates_input (puzzleHash : String) : SubscribeInput :=
  let puzzleHash := validateHashString puzzleHash
  if puzzleHash.length = 0 then .noop else .register puzzleHash

/-- The validation phase of `subscribeToCoinUpdates` (lines 169–170):
re-assign `coinId := validateHashString coinId` and return silently when
it is empty. -/
def subscribeToCoinUpdates_input (coinId : String) : SubscribeInput :=
  let coinId := validateHashString coinId
  if coinId.length = 0 then .noop else .register coinId

/-! ## getPuzzleSolution (lines 204–255) -/

/-- The `consumeMessage` closure of `getPuzzleSolution` (lines 221–247):
accept a `reject_puzzle_solution` with matching `(coinName, height)`, or a
`respond_puzzle_solution` whose `response` has matching
`(coinName, height)`; everything else is not consumed. -/
def getPuzzleSolution_consume (coinId : String) (height : Nat) : Message → Bool
  | .rejectPuzzleSolution rPckt =>
    rPckt.coinName = coinId ∧ rPckt.height = height
  | .respondPuzzleSolution rPckt =>
    rPckt.response.coinName = coinId ∧ rPckt.response.height = height
  | _ => false

/-- The effect of `getPuzzleSolution` processing one inbound frame
(lines 218–254): `none` when the predicate does not consume the frame;
`some none` when the consumed frame was a matching reject (`returnNull`
set, lines 228–231 and 250–252); `some (some sol)` when the consumed frame
was a matching respond, translated at line 254. -/
def getPuzzleSolution_step (coinId : String) (height : Nat) :
    Message → Option (Option PuzzleSolution)
  | .rejectPuzzleSolution rPckt =>
    if rPckt.coinName = coinId ∧ rPckt.height = height then some none else none
  | .respondPuzzleSolution rPckt =>
    if rPckt.response.coinName = coinId ∧ rPckt.response.height = height then
      some (some (serializerPuzzleSolutionResponseToProviderPuzzleSolution rPckt.response))
    else none
  | _ => none

/-! ## getCoinChildren (lines 257–298) -/

/-- Outcome of the validation phase of `getCoinChildren`: either the early
`return []` (the empty list, not `null`; no frame sent), or the validated
coin id placed in the `request_children` frame. -/
inductive ChildrenInput where
  | returnEmptyList
  | send (coinId : String)
  deriving Repr, DecidableEq

/-- The validation phase of `getCoinChildren` (lines 258–259): re-assign
`coinId := validateHashString coinId` and return `[]` when it is empty. -/
def getCoinChildren_input (coinId : String) : ChildrenInput :=
  let coinId := validateHashString coinId
  if coinId.length = 0 then .returnEmptyList else .send coinId

/-- The `consumeMessage` closure of `getCoinChildren` (lines 272–284):
accept a `respond_children` frame iff its coin-state list is empty or its
`parent_coin_info` of the first entry equals `coinId`. -/
def getCoinChildren_consume (coinId : String) : Message → Bool
  | .respondChildren rPckt =>
    match rPckt.coinStates with
    | [] => true
    | cs :: _ => cs.coin.parentCoinInfo = coinId
  | _ => false

/-- The post-await phase of `getCoinChildren` (lines 287–297): translate
every coin state of the consumed packet into the public data model. -/
def getCoinChildren_result (rPckt : RespondChildren) : List ProviderCoinState :=
  rPckt.coinStates.map serializerCoinStateToProviderCoinState

/-! ## getBlocksHeaders (lines 351–412) -/

/-- The `consumeMessage` closure of `getBlocksHeaders` (lines 367–393):
accept a `reject_header_blocks` or a `respond_header_blocks` whose
`startHeight` and `endHeight` both equal those of the request. -/
def getBlocksHeaders_consume (startHeight endHeight : Nat) : Message → Bool
  | .rejectHeaderBlocks rPckt =>
    rPckt.startHeight = startHeight ∧ rPckt.endHeight = endHeight
  | .respondHeaderBlocks rPckt =>
    rPckt.startHeight = startHeight ∧ rPckt.endHeight = endHeight
  | _ => false

/-- The post-await phase of `getBlocksHeaders` on a respond packet
(lines 400–411): element `i` is the translation of the `i`-th header block
at height `respPckt.startHeight + i`. -/
def getBlocksHeaders_headers (respPckt : RespondHeaderBlocks) : List BlockHeader :=
  respPckt.headerBlocks.enum.map
    (fun p => serializerHeaderBlockToProviderBlockHeader p.2 (respPckt.startHeight + p.1))

/-- The effect of `getBlocksHeaders` processing one inbound frame: `none`
when not consumed, `some none` for a matching reject (lines 374–377 and
396–398), `some (some headers)` for a matching respond. -/
def getBlocksHeaders_step (startHeight endHeight : Nat) :
    Message → Option (Option (List BlockHeader))
  | .rejectHeaderBlocks rPckt =>
    if rPckt.startHeight = startHeight ∧ rPckt.endHeight = endHeight then some none
    else none
  | .respondHeaderBlocks rPckt =>
    if rPckt.startHeight = startHeight ∧ rPckt.endHeight = endHeight then
      some (some (getBlocksHeaders_headers rPckt))
    else none
  | _ => none

/-! ## getCoinRemovals (lines 414–490) -/

/-- Outcome of the validation phase of `getCoinRemovals`: either the early
`return null` (no frame sent), or the `request_removals` frame contents
(validated header hash and, when a coin-id list was supplied, the
validated list). -/
inductive RemovalsInput where
  | returnNull
  | send (headerHash : String) (coinNames : Option (List String))
  deriving Repr, DecidableEq

/-- The coin-id validation loop of `getCoinRemovals` (lines 422–430):
validate each id in order, aborting with `null` at the first invalid one. -/
def parseCoinIds : List String → Option (List String)
  | [] => some []
  | c :: rest =>
    let parsed := validateHashString c
    if parsed.length = 0 then none
    else (parseCoinIds rest).map (fun tail => parsed :: tail)

/-- The validation phase of `getCoinRemovals` (lines 419–435): validate
`headerHash` (empty → `null`), then every supplied coin id (any invalid →
`null`); otherwise build the `request_removals` frame, with
`coinNames = null` when no list was supplied. -/
def getCoinRemovals_input (headerHash : String) (coinIds : Option (List String)) :
    RemovalsInput :=
  let headerHash := validateHashString headerHash
  if headerHash.length = 0 then .returnNull
  else
    match coinIds with
    | none => .send headerHash none
    | some ids =>
      match parseCoinIds ids with
      | none => .returnNull
      | some parsedCoinIds => .send headerHash (some parsedCoinIds)

/-! ## Unsupported operations (lines 572–591) -/

/-- The error-taxonomy entry of the spec for methods the Leaflet provider does
not implement; in the source each such method throws
`Error("LeafletProvider does not implement this method.")`. -/
inductive ProviderError where
  | unsupportedOperation (message : String)
  deriving Repr, DecidableEq

/-- The error thrown by every unsupported method. -/
def notImplementedError : ProviderError :=
  .unsupportedOperation "LeafletProvider does not implement this method."

/-- Arguments of `transfer`; the unsupported methods never inspect them. -/
structure TransferArgs where
  recipient : String
  value : Int
  deriving Repr, DecidableEq

/-- Arguments of `transferCAT`. -/
structure TransferCATArgs where
  recipient : String
  assetId : String
  value : Int
  deriving Repr, DecidableEq

/-- Arguments of `acceptOffer`. -/
structure AcceptOfferArgs where
  offer : String
  deriving Repr, DecidableEq

/-- Arguments of `subscribeToAddressChanges`. -/
structure SubscribeToAddressChangesArgs where
  address : String
  deriving Repr, DecidableEq

/-- Operation `getAddress` (lines 572–574): throws unconditionally. -/
def getAddress : Except ProviderError String :=
  .error notImplementedError

/-- Operation `transfer` (lines 576–578): throws unconditionally. -/
def transfer (_args : TransferArgs) : Except ProviderError Bool :=
  .error notImplementedError

/-- Operation `transferCAT` (lines 580–582): throws unconditionally. -/
def transferCAT (_args : TransferCATArgs) : Except ProviderError Bool :=
  .error notImplementedError

/-- Operation `acceptOffer` (lines 584–586): throws unconditionally. -/
def acceptOffer (_args : AcceptOfferArgs) : Except ProviderError Bool :=
  .error notImplementedError

/-- Operation `subscribeToAddressChanges` (lines 588–590): throws unconditionally. -/
def subscribeToAddressChanges (_args : SubscribeToAddressChangesArgs) :
    Except ProviderError Unit :=
  .error notImplementedError

/-! ## Helper lemmas -/

/-- Folding `+ amount` over a coin-state list, as the `getBalance` loop
does, computes the initial accumulator plus the sum of the amounts. -/
theorem foldl_add_amount (l : List CoinState) (a : Int) :
    l.foldl (fun balance cs => balance + cs.coin.amount) a =
      a + (l.map (fun cs => cs.coin.amount)).sum := by
  induction l generalizing a with
  | nil => simp
  | cons cs rest ih => simp [List.foldl_cons, ih, add_assoc]

/-- The validated hash has length zero exactly when validation failed. -/
theorem validateHashString_length_eq_zero_iff (s : String) :
    (validateHashString s).length = 0 ↔ validateHashString s = "" := by
  simp only [validateHashString]
  split
  · rename_i h
    constructor
    · intro hlen
      exfalso
      have h1 := h.1
      simp only [String.length] at hlen
      omega
    · intro heq
      have hdata : strip0x (s.data.map lowerChar) = [] := by
        have := congrArg String.data heq
        simpa using this
      have h1 := h.1
      rw [hdata] at h1
      simp at h1
  · simp [String.length]

/-- Filtering on the puzzle hash and then on unspentness, as `getBalance`
does in two passes, equals the single filter on the conjunction. -/
theorem filter_filter_unspent (l : List CoinState) (puzHash : String) :
    (l.filter (fun cs => cs.coin.puzzleHash = puzHash)).filter
        (fun cs => cs.spentHeight = none) =
      l.filter (fun cs => cs.coin.puzzleHash = puzHash ∧ cs.spentHeight = none) := by
  induction l with
  | nil => rfl
  | cons cs rest ih =>
    by_cases h1 : cs.coin.puzzleHash = puzHash <;>
      by_cases h2 : cs.spentHeight = none <;>
        simp [h1, h2, ih]

/-- The coin-id validation loop fails exactly when some supplied id fails
hex validation. -/
theorem parseCoinIds_eq_none_iff (ids : List String) :
    parseCoinIds ids = none ↔ ∃ c ∈ ids, validateHashString c = "" := by
  induction ids with
  | nil => simp [parseCoinIds]
  | cons c rest ih =>
    simp only [parseCoinIds]
    by_cases hc : validateHashString c = ""
    · have hlen : (validateHashString c).length = 0 := by
        rw [validateHashString_length_eq_zero_iff]; exact hc
      rw [if_pos hlen]
      simp [hc]
    · have hlen : ¬(validateHashString c).length = 0 := by
        rw [validateHashString_length_eq_zero_iff]; exact hc
      rw [if_neg hlen]
      cases hp : parseCoinIds rest with
      | none =>
        rw [hp] at ih
        simp only [Option.map_none']
        constructor
        · intro _
          obtain ⟨d, hd, hdv⟩ := ih.mp rfl
          exact ⟨d, List.mem_cons_of_mem c hd, hdv⟩
        · intro _; trivial
      | some parsed =>
        rw [hp] at ih
        simp only [Option.map_some']
        constructor
        · intro habs; exact absurd habs (by simp)
        · rintro ⟨d, hd, hdv⟩
          rcases List.mem_cons.mp hd with rfl | hd2
          · exact absurd hdv hc
          · exact absurd (ih.mpr ⟨d, hd2, hdv⟩) (by simp)

/-! ## Claim theorems -/

/-- C9: every invocation of `getAddress`, `transfer`, `transferCAT`,
`acceptOffer`, or `subscribeToAddressChanges` fails with the
unsupported-operation error, for all arguments and regardless of
connection state (none of them reads any state before throwing). -/
theorem unsupported_operations_always_throw :
    getAddress = Except.error (ProviderError.unsupportedOperation
      "LeafletProvider does not implement this method.") ∧
    (∀ args : TransferArgs, transfer args = Except.error notImplementedError) ∧
    (∀ args : TransferCATArgs, transferCAT args = Except.error notImplementedError) ∧
    (∀ args : AcceptOfferArgs, acceptOffer args = Except.error notImplementedError) ∧
    (∀ args : SubscribeToAddressChangesArgs,
      subscribeToAddressChanges args = Except.error notImplementedError) :=
  ⟨rfl, fun _ => rfl, fun _ => rfl, fun _ => rfl, fun _ => rfl⟩

/-- C10: `getCoinChildren` with a coin id that fails hex validation takes
the early return, yielding the empty list (its return type is a plain
list, never `null`) and sending no frame. -/
theorem getCoinChildren_invalid_coinId_returns_empty (coinId : String)
    (h : validateHashString coinId = "") :
    getCoinChildren_input coinId = ChildrenInput.returnEmptyList := by
  simp [getCoinChildren_input, h]

/-- C10 witness: the concrete non-hex input "not-a-hash" fails validation
and takes the early return. -/
theorem getCoinChildren_invalid_coinId_returns_empty_witness :
    validateHashString "not-a-hash" = "" ∧
    getCoinChildren_input "not-a-hash" = ChildrenInput.returnEmptyList :=
  ⟨by decide, getCoinChildren_invalid_coinId_returns_empty "not-a-hash" (by decide)⟩

/-- C8: a subscription call whose puzzle hash (respectively coin id) fails
hex validation returns silently: no frame is sent, no filter is
registered, and hence the callback can never be invoked. -/
theorem subscribe_invalid_hash_noop (key : String)
    (h : validateHashString key = "") :
    subscribeToPuzzleHashUpdates_input key = SubscribeInput.noop ∧
    subscribeToCoinUpdates_input key = SubscribeInput.noop := by
  constructor
  · simp [subscribeToPuzzleHashUpdates_input, h]
  · simp [subscribeToCoinUpdates_input, h]

/-- C8 witness: the concrete non-hex input "xyz" silently no-ops both
subscription operations. -/
theorem subscribe_invalid_hash_noop_witness :
    validateHashString "xyz" = "" ∧
    subscribeToPuzzleHashUpdates_input "xyz" = SubscribeInput.noop ∧
    subscribeToCoinUpdates_input "xyz" = SubscribeInput.noop :=
  ⟨by decide, subscribe_invalid_hash_noop "xyz" (by decide)⟩

/-- C7: `getBlockNumber` is a pure read of the cache maintained by the
peak watcher: after the watcher has processed the frames `msgs` (in
arrival order) since `connect`, it returns `null` when no
`new_peak_wallet` frame was consumed, and otherwise the height carried by
the most recently consumed `new_peak_wallet` frame. -/
theorem getBlockNumber_returns_latest_peak (msgs : List Message) :
    getBlockNumber (blockNumberAfter msgs) =
      match msgs.reverse.find? peakWatcher_consume with
      | some (Message.newPeakWallet pckt) => some pckt.height
      | _ => none := by
  induction msgs using List.reverseRecOn with
  | nil => rfl
  | append_singleton l m ih =>
    simp only [getBlockNumber, blockNumberAfter, List.foldl_append, List.foldl_cons,
      List.foldl_nil, List.reverse_append, List.reverse_cons, List.reverse_nil,
      List.nil_append, List.cons_append, List.find?_cons] at *
    cases m with
    | newPeakWallet pckt => simp [peakWatcher_consume]
    | respondToPhUpdates p => simpa [peakWatcher_consume] using ih
    | respondToCoinUpdates p => simpa [peakWatcher_consume] using ih
    | rejectPuzzleSolution p => simpa [peakWatcher_consume] using ih
    | respondPuzzleSolution p => simpa [peakWatcher_consume] using ih
    | respondChildren p => simpa [peakWatcher_consume] using ih
    | rejectHeaderRequest p => simpa [peakWatcher_consume] using ih
    | respondBlockHeader p => simpa [peakWatcher_consume] using ih
    | rejectHeaderBlocks p => simpa [peakWatcher_consume] using ih
    | respondHeaderBlocks p => simpa [peakWatcher_consume] using ih
    | rejectRemovalsRequest p => simpa [peakWatcher_consume] using ih
    | respondRemovals p => simpa [peakWatcher_consume] using ih
    | rejectAdditionsRequest p => simpa [peakWatcher_consume] using ih
    | respondAdditions p => simpa [peakWatcher_consume] using ih

/-- C3: the predicate registered by `getPuzzleSolution` accepts exactly a
`reject_puzzle_solution` frame with matching `(coinName, height)` — in
which case the operation returns `null` — or a `respond_puzzle_solution`
frame whose response has matching `(coinName, height)` — in which case the
operation returns the translated puzzle solution; all other frames are not
consumed. -/
theorem getPuzzleSolution_accepts_exactly_matching_frames
    (coinId : String) (height : Nat) (msg : Message) :
    (getPuzzleSolution_consume coinId height msg = true ↔
      (∃ rPckt, msg = Message.rejectPuzzleSolution rPckt ∧
        rPckt.coinName = coinId ∧ rPckt.height = height) ∨
      (∃ rPckt, msg = Message.respondPuzzleSolution rPckt ∧
        rPckt.response.coinName = coinId ∧ rPckt.response.height = height)) ∧
    (∀ rPckt, msg = Message.rejectPuzzleSolution rPckt →
      rPckt.coinName = coinId → rPckt.height = height →
      getPuzzleSolution_step coinId height msg = some none) ∧
    (∀ rPckt, msg = Message.respondPuzzleSolution rPckt →
      rPckt.response.coinName = coinId → rPckt.response.height = height →
      getPuzzleSolution_step coinId height msg =
        some (some (serializerPuzzleSolutionResponseToProviderPuzzleSolution
          rPckt.response))) ∧
    (getPuzzleSolution_consume coinId height msg = false →
      getPuzzleSolution_step coinId height msg = none) := by
  refine ⟨?_, ?_, ?_, ?_⟩
  · cases msg <;>
      simp only [getPuzzleSolution_consume] <;>
      simp
  · rintro rPckt rfl h1 h2
    simp [getPuzzleSolution_step, h1, h2]
  · rintro rPckt rfl h1 h2
    simp [getPuzzleSolution_step, h1, h2]
  · intro h
    cases msg
    case rejectPuzzleSolution rPckt =>
      simp only [getPuzzleSolution_step]
      split
      · rename_i hcond
        exfalso
        simp [getPuzzleSolution_consume, hcond] at h
      · rfl
    case respondPuzzleSolution rPckt =>
      simp only [getPuzzleSolution_step]
      split
      · rename_i hcond
        exfalso
        simp [getPuzzleSolution_consume, hcond] at h
      · rfl
    all_goals rfl

/-- C3 witness: a matching reject frame is consumed and yields `null`, and
a matching respond frame is consumed and yields the translated solution. -/
theorem getPuzzleSolution_accepts_exactly_matching_frames_witness :
    (getPuzzleSolution_step "c1" 5
      (Message.rejectPuzzleSolution ⟨"c1", 5⟩) = some none) ∧
    (getPuzzleSolution_step "c1" 5
      (Message.respondPuzzleSolution ⟨⟨"c1", 5, "puz", "sol"⟩⟩) =
        some (some ⟨"c1", 5, "puz", "sol"⟩)) ∧
    getPuzzleSolution_consume "c1" 5 (Message.newPeakWallet ⟨9⟩) = false :=
  ⟨(getPuzzleSolution_accepts_exactly_matching_frames "c1" 5
      (Message.rejectPuzzleSolution ⟨"c1", 5⟩)).2.1 ⟨"c1", 5⟩ rfl rfl rfl,
   (getPuzzleSolution_accepts_exactly_matching_frames "c1" 5
      (Message.respondPuzzleSolution ⟨⟨"c1", 5, "puz", "sol"⟩⟩)).2.2.1
      ⟨⟨"c1", 5, "puz", "sol"⟩⟩ rfl rfl rfl,
   by decide⟩

/-- C5: the predicate registered by `getBlocksHeaders` consumes only
`respond_header_blocks` or `reject_header_blocks` frames whose
`startHeight` and `endHeight` both equal those of the request; a consumed
reject yields `null`, and a consumed respond yields one `BlockHeader` per
response header block, the i-th having height `startHeight + i`. -/
theorem getBlocksHeaders_matching_and_heights
    (startHeight endHeight : Nat) (msg : Message) :
    (getBlocksHeaders_consume startHeight endHeight msg = true ↔
      (∃ rPckt, msg = Message.rejectHeaderBlocks rPckt ∧
        rPckt.startHeight = startHeight ∧ rPckt.endHeight = endHeight) ∨
      (∃ rPckt, msg = Message.respondHeaderBlocks rPckt ∧
        rPckt.startHeight = startHeight ∧ rPckt.endHeight = endHeight)) ∧
    (∀ rPckt, msg = Message.rejectHeaderBlocks rPckt →
      rPckt.startHeight = startHeight → rPckt.endHeight = endHeight →
      getBlocksHeaders_step startHeight endHeight msg = some none) ∧
    (∀ rPckt, msg = Message.respondHeaderBlocks rPckt →
      rPckt.startHeight = startHeight → rPckt.endHeight = endHeight →
      getBlocksHeaders_step startHeight endHeight msg =
        some (some (getBlocksHeaders_headers rPckt)) ∧
      (getBlocksHeaders_headers rPckt).length = rPckt.headerBlocks.length ∧
      ∀ (i : Nat) (hi : i < (getBlocksHeaders_headers rPckt).length),
        ((getBlocksHeaders_headers rPckt).get ⟨i, hi⟩).height = startHeight + i) ∧
    (getBlocksHeaders_consume startHeight endHeight msg = false →
      getBlocksHeaders_step startHeight endHeight msg = none) := by
  refine ⟨?_, ?_, ?_, ?_⟩
  · cases msg <;>
      simp only [getBlocksHeaders_consume] <;>
      simp
  · rintro rPckt rfl h1 h2
    simp [getBlocksHeaders_step, h1, h2]
  · rintro rPckt rfl h1 h2
    refine ⟨by simp [getBlocksHeaders_step, h1, h2], ?_, ?_⟩
    · simp [getBlocksHeaders_headers]
    · intro i hi
      simp only [getBlocksHeaders_headers, List.get_eq_getElem, List.getElem_map,
        List.getElem_enum, serializerHeaderBlockToProviderBlockHeader, h1]
  · intro h
    cases msg
    case rejectHeaderBlocks rPckt =>
      simp only [getBlocksHeaders_step]
      split
      · rename_i hcond
        exfalso
        simp [getBlocksHeaders_consume, hcond] at h
      · rfl
    case respondHeaderBlocks rPckt =>
      simp only [getBlocksHeaders_step]
      split
      · rename_i hcond
        exfalso
        simp [getBlocksHeaders_consume, hcond] at h
      · rfl
    all_goals rfl

/-- C5 witness: a respond packet at `(100, 101)` with two header blocks is
consumed and translated with heights `100` and `101`, and a mismatching
reject is not consumed. -/
theorem getBlocksHeaders_matching_and_heights_witness :
    getBlocksHeaders_step 100 101
      (Message.respondHeaderBlocks ⟨100, 101,
        [⟨100, "hh0", "ph0"⟩, ⟨101, "hh1", "ph1"⟩]⟩) =
      some (some [⟨100, "hh0", "ph0"⟩, ⟨101, "hh1", "ph1"⟩]) ∧
    ((getBlocksHeaders_headers ⟨100, 101,
        [⟨100, "hh0", "ph0"⟩, ⟨101, "hh1", "ph1"⟩]⟩).get
      ⟨1, by decide⟩).height = 100 + 1 ∧
    getBlocksHeaders_consume 100 101
      (Message.rejectHeaderBlocks ⟨100, 102⟩) = false :=
  ⟨((getBlocksHeaders_matching_and_heights 100 101
      (Message.respondHeaderBlocks ⟨100, 101,
        [⟨100, "hh0", "ph0"⟩, ⟨101, "hh1", "ph1"⟩]⟩)).2.2.1
      ⟨100, 101, [⟨100, "hh0", "ph0"⟩, ⟨101, "hh1", "ph1"⟩]⟩ rfl rfl rfl).1,
   ((getBlocksHeaders_matching_and_heights 100 101
      (Message.respondHeaderBlocks ⟨100, 101,
        [⟨100, "hh0", "ph0"⟩, ⟨101, "hh1", "ph1"⟩]⟩)).2.2.1
      ⟨100, 101, [⟨100, "hh0", "ph0"⟩, ⟨101, "hh1", "ph1"⟩]⟩ rfl rfl rfl).2.2
      1 (by decide),
   by decide⟩

/-- C6: the predicate registered by `getCoinChildren` consumes a
`respond_children` frame iff its coin-state list is empty or the
`parent_coin_info` of its first entry equals the requested coin id, and
the operation returns the translation of all coin states of the consumed
frame — an empty response list yields `[]` (the return type is a plain
list, never `null`). -/
theorem getCoinChildren_matching_and_translation (coinId : String) (msg : Message) :
    (getCoinChildren_consume coinId msg = true ↔
      ∃ rPckt, msg = Message.respondChildren rPckt ∧
        (rPckt.coinStates = [] ∨
          ∃ cs rest, rPckt.coinStates = cs :: rest ∧
            cs.coin.parentCoinInfo = coinId)) ∧
    (∀ rPckt, msg = Message.respondChildren rPckt →
      (getCoinChildren_result rPckt).length = rPckt.coinStates.length ∧
      (rPckt.coinStates = [] → getCoinChildren_result rPckt = []) ∧
      ∀ (i : Nat) (hi : i < rPckt.coinStates.length)
        (hi2 : i < (getCoinChildren_result rPckt).length),
        (getCoinChildren_result rPckt).get ⟨i, hi2⟩ =
          serializerCoinStateToProviderCoinState (rPckt.coinStates.get ⟨i, hi⟩)) := by
  constructor
  · cases msg with
    | respondChildren rPckt =>
      simp only [getCoinChildren_consume]
      cases h : rPckt.coinStates with
      | nil => simp [h]
      | cons cs rest =>
        simp only [decide_eq_true_eq]
        constructor
        · intro hp
          exact ⟨rPckt, rfl, Or.inr ⟨cs, rest, h, hp⟩⟩
        · rintro ⟨rPckt2, heq, hcase⟩
          cases heq
          rcases hcase with hnil | ⟨cs2, rest2, hcons, hpar⟩
          · rw [h] at hnil; cases hnil
          · rw [h] at hcons
            cases hcons
            exact hpar
    | newPeakWallet p => simp [getCoinChildren_consume]
    | respondToPhUpdates p => simp [getCoinChildren_consume]
    | respondToCoinUpdates p => simp [getCoinChildren_consume]
    | rejectPuzzleSolution p => simp [getCoinChildren_consume]
    | respondPuzzleSolution p => simp [getCoinChildren_consume]
    | rejectHeaderRequest p => simp [getCoinChildren_consume]
    | respondBlockHeader p => simp [getCoinChildren_consume]
    | rejectHeaderBlocks p => simp [getCoinChildren_consume]
    | respondHeaderBlocks p => simp [getCoinChildren_consume]
    | rejectRemovalsRequest p => simp [getCoinChildren_consume]
    | respondRemovals p => simp [getCoinChildren_consume]
    | rejectAdditionsRequest p => simp [getCoinChildren_consume]
    | respondAdditions p => simp [getCoinChildren_consume]
  · rintro rPckt rfl
    refine ⟨by simp [getCoinChildren_result], ?_, ?_⟩
    · intro h; simp [getCoinChildren_result, h]
    · intro i hi hi2
      simp [getCoinChildren_result]

/-- C6 witness: an empty respond is consumed and yields `[]`, a respond
whose first child has the requested parent is consumed and fully
translated, and a respond whose first child has another parent is not
consumed. -/
theorem getCoinChildren_matching_and_translation_witness :
    getCoinChildren_consume "par" (Message.respondChildren ⟨[]⟩) = true ∧
    getCoinChildren_result (⟨[]⟩ : RespondChildren) = [] ∧
    getCoinChildren_consume "par" (Message.respondChildren
      ⟨[⟨⟨"par", "ph", 7⟩, none, some 3⟩]⟩) = true ∧
    getCoinChildren_consume "par" (Message.respondChildren
      ⟨[⟨⟨"other", "ph", 7⟩, none, some 3⟩]⟩) = false :=
  ⟨(getCoinChildren_matching_and_translation "par"
      (Message.respondChildren ⟨[]⟩)).1.mpr ⟨⟨[]⟩, rfl, Or.inl rfl⟩,
   ((getCoinChildren_matching_and_translation "par"
      (Message.respondChildren ⟨[]⟩)).2 ⟨[]⟩ rfl).2.1 rfl,
   by decide,
   by decide⟩

/-- C4: `getCoinRemovals` returns `null` without sending exactly when the
header hash fails hex validation or some supplied coin id fails hex
validation; otherwise it sends the `request_removals` frame. -/
theorem getCoinRemovals_validates_before_send (headerHash : String)
    (coinIds : Option (List String)) :
    (getCoinRemovals_input headerHash coinIds = RemovalsInput.returnNull ↔
      validateHashString headerHash = "" ∨
      ∃ c ∈ coinIds.getD [], validateHashString c = "") ∧
    ((∃ hh cns, getCoinRemovals_input headerHash coinIds = RemovalsInput.send hh cns) ↔
      ¬(validateHashString headerHash = "" ∨
        ∃ c ∈ coinIds.getD [], validateHashString c = "")) := by
  have hmain : getCoinRemovals_input headerHash coinIds = RemovalsInput.returnNull ↔
      validateHashString headerHash = "" ∨
      ∃ c ∈ coinIds.getD [], validateHashString c = "" := by
    by_cases hh : (validateHashString headerHash).length = 0
    · have hh2 := (validateHashString_length_eq_zero_iff headerHash).mp hh
      unfold getCoinRemovals_input
      rw [if_pos hh]
      simp [hh2]
    · have hh2 : ¬validateHashString headerHash = "" := by
        rw [← validateHashString_length_eq_zero_iff]; exact hh
      cases coinIds with
      | none =>
        unfold getCoinRemovals_input
        rw [if_neg hh]
        simp [hh2]
      | some ids =>
        unfold getCoinRemovals_input
        rw [if_neg hh]
        cases hp : parseCoinIds ids with
        | none =>
          have hbad := (parseCoinIds_eq_none_iff ids).mp hp
          simp only [Option.getD_some]
          simp [hp, hbad]
        | some parsed =>
          have hgood : ¬∃ c ∈ ids, validateHashString c = "" := by
            rw [← parseCoinIds_eq_none_iff]
            simp [hp]
          simp only [Option.getD_some]
          simp [hp, hh2, hgood]
  refine ⟨hmain, ?_, ?_⟩
  · rintro ⟨hh2, cns, hsend⟩ hbad
    rw [← hmain] at hbad
    rw [hsend] at hbad
    cases hbad
  · intro hgood
    cases hcase : getCoinRemovals_input headerHash coinIds with
    | returnNull => exact absurd (hmain.mp hcase) hgood
    | send hh2 cns => exact ⟨hh2, cns, rfl⟩

/-- C4 witness: an invalid header hash aborts with `null`, a valid header
hash with one invalid coin id aborts with `null`, and fully valid inputs
produce a send. -/
theorem getCoinRemovals_validates_before_send_witness :
    getCoinRemovals_input "zz" none = RemovalsInput.returnNull ∧
    getCoinRemovals_input
      "aaaaaaaaaaaaaaaaaaaaaaaaaaaaaaaaaaaaaaaaaaaaaaaaaaaaaaaaaaaaaaaa"
      (some ["zz"]) = RemovalsInput.returnNull ∧
    ∃ hh cns, getCoinRemovals_input
      "aaaaaaaaaaaaaaaaaaaaaaaaaaaaaaaaaaaaaaaaaaaaaaaaaaaaaaaaaaaaaaaa"
      (some ["bbbbbbbbbbbbbbbbbbbbbbbbbbbbbbbbbbbbbbbbbbbbbbbbbbbbbbbbbbbbbbbb"]) =
      RemovalsInput.send hh cns :=
  ⟨(getCoinRemovals_validates_before_send "zz" none).1.mpr (Or.inl (by decide)),
   (getCoinRemovals_validates_before_send
      "aaaaaaaaaaaaaaaaaaaaaaaaaaaaaaaaaaaaaaaaaaaaaaaaaaaaaaaaaaaaaaaa"
      (some ["zz"])).1.mpr (Or.inr ⟨"zz", by decide, by decide⟩),
   (getCoinRemovals_validates_before_send
      "aaaaaaaaaaaaaaaaaaaaaaaaaaaaaaaaaaaaaaaaaaaaaaaaaaaaaaaaaaaaaaaa"
      (some ["bbbbbbbbbbbbbbbbbbbbbbbbbbbbbbbbbbbbbbbbbbbbbbbbbbbbbbbbbbbbbbbb"])).2.mpr
      (by decide)⟩

/-- C2: when a `respond_to_ph_update` frame whose `puzzleHashes` list
contains `puzHash` is consumed, `getBalance` returns the sum — over an
arbitrary-precision accumulator — of `coin.amount` over exactly those coin
states whose coin has puzzle hash `puzHash` and whose `spentHeight` is
`null`. -/
theorem getBalance_sums_unspent_matching (puzHash : String)
    (rPckt : RespondToPhUpdates) (h : puzHash ∈ rPckt.puzzleHashes) :
    getBalance_consume puzHash (Message.respondToPhUpdates rPckt) = true ∧
    getBalance_result puzHash rPckt =
      ((rPckt.coinStates.filter (fun cs =>
          cs.coin.puzzleHash = puzHash ∧ cs.spentHeight = none)).map
        (fun cs => cs.coin.amount)).sum := by
  constructor
  · simp only [getBalance_consume]
    simpa using h
  · unfold getBalance_result
    rw [foldl_add_amount, zero_add, filter_filter_unspent]

/-- C2 witness: spec scenario 1 — two unspent coins of 100 and 250 at the
requested puzzle hash plus one foreign coin sum to 350. -/
theorem getBalance_sums_unspent_matching_witness :
    "ph" ∈ (⟨["ph"],
      [⟨⟨"p1", "ph", 100⟩, none, some 1⟩,
       ⟨⟨"p2", "ph", 250⟩, none, some 1⟩,
       ⟨⟨"p3", "other", 7⟩, none, some 1⟩]⟩ : RespondToPhUpdates).puzzleHashes ∧
    getBalance_consume "ph" (Message.respondToPhUpdates ⟨["ph"],
      [⟨⟨"p1", "ph", 100⟩, none, some 1⟩,
       ⟨⟨"p2", "ph", 250⟩, none, some 1⟩,
       ⟨⟨"p3", "other", 7⟩, none, some 1⟩]⟩) = true ∧
    getBalance_result "ph" ⟨["ph"],
      [⟨⟨"p1", "ph", 100⟩, none, some 1⟩,
       ⟨⟨"p2", "ph", 250⟩, none, some 1⟩,
       ⟨⟨"p3", "other", 7⟩, none, some 1⟩]⟩ = 350 := by
  refine ⟨by decide, ?_, ?_⟩
  · exact (getBalance_sums_unspent_matching "ph" ⟨["ph"],
      [⟨⟨"p1", "ph", 100⟩, none, some 1⟩,
       ⟨⟨"p2", "ph", 250⟩, none, some 1⟩,
       ⟨⟨"p3", "other", 7⟩, none, some 1⟩]⟩ (by decide)).1
  · rw [(getBalance_sums_unspent_matching "ph" ⟨["ph"],
      [⟨⟨"p1", "ph", 100⟩, none, some 1⟩,
       ⟨⟨"p2", "ph", 250⟩, none, some 1⟩,
       ⟨⟨"p3", "other", 7⟩, none, some 1⟩]⟩ (by decide)).2]
    decide

/-- C1 counterexample: with no address and the non-hex puzzle hash
"not-a-puzzle-hash", `getBalance` does not take the early `null` return:
the validation result (the empty string) is used as the puzzle hash of the
`register_interest_in_puzzle_hash` frame, which is sent. -/
theorem getBalance_invalid_puzzleHash_still_sends :
    validateHashString "not-a-puzzle-hash" = "" ∧
    getBalance_input (fun _ => "") none (some "not-a-puzzle-hash") ≠
      BalanceInput.returnNull ∧
    getBalance_input (fun _ => "") none (some "not-a-puzzle-hash") =
      BalanceInput.send "" := by
  refine ⟨by decide, by decide, by decide⟩

/-- C1 (amended): `getBalance` returns `null` without sending exactly when
the address is provided, starts with the HRP and fails bech32m decoding,
or when neither a usable address nor a puzzle hash is given; when the
puzzle-hash path is taken, the frame is sent with the validation result
even if validation failed (the empty hash). -/
theorem getBalance_input_null_iff (addressToPuzzleHash : String → String)
    (address puzzleHash : Option String) :
    (getBalance_input addressToPuzzleHash address puzzleHash = BalanceInput.returnNull ↔
      (∃ a, address = some a ∧ strStartsWith a ADDRESS_HRP = true ∧
        addressToPuzzleHash a = "") ∨
      (puzzleHash = none ∧
        ∀ a, address = some a → strStartsWith a ADDRESS_HRP = false)) ∧
    (∀ ph, puzzleHash = some ph →
      (∀ a, address = some a → strStartsWith a ADDRESS_HRP = false) →
      getBalance_input addressToPuzzleHash address puzzleHash =
        BalanceInput.send (validateHashString ph)) := by
  cases address with
  | none =>
    cases puzzleHash with
    | none =>
      refine ⟨?_, ?_⟩
      · simp [getBalance_input]
      · rintro ph hph; cases hph
    | some ph =>
      refine ⟨?_, ?_⟩
      · simp [getBalance_input]
      · rintro ph2 hph _
        cases hph
        rfl
  | some a =>
    by_cases hs : strStartsWith a ADDRESS_HRP = true
    · by_cases hz : addressToPuzzleHash a = ""
      · have hlen : (addressToPuzzleHash a).length = 0 := by
          rw [hz]; rfl
        refine ⟨?_, ?_⟩
        · simp only [getBalance_input, hs, if_true, hlen, if_pos]
          simp [hs, hz]
        · rintro ph hph hfalse
          exact absurd (hfalse a rfl) (by simp [hs])
      · have hlen : ¬(addressToPuzzleHash a).length = 0 := by
          intro habs
          exact hz (String.ext (List.length_eq_zero.mp habs))
        refine ⟨?_, ?_⟩
        · simp only [getBalance_input, hs, if_true]
          rw [if_neg hlen]
          constructor
          · intro habs; cases habs
          · rintro (⟨a2, ha2, _, hdec⟩ | ⟨_, hall⟩)
            · cases ha2; exact absurd hdec hz
            · exact absurd (hall a rfl) (by simp [hs])
        · rintro ph hph hfalse
          exact absurd (hfalse a rfl) (by simp [hs])
    · have hs2 : strStartsWith a ADDRESS_HRP = false := by
        cases hb : strStartsWith a ADDRESS_HRP
        · rfl
        · exact absurd hb hs
      cases puzzleHash with
      | none =>
        refine ⟨?_, ?_⟩
        · simp only [getBalance_input, hs2, Bool.false_eq_true, if_false]
          constructor
          · intro _
            exact Or.inr ⟨by trivial, fun a2 ha2 => by cases ha2; exact hs2⟩
          · intro _; trivial
        · rintro ph hph; cases hph
      | some ph =>
        refine ⟨?_, ?_⟩
        · simp only [getBalance_input, hs2, Bool.false_eq_true, if_false]
          constructor
          · intro habs; cases habs
          · rintro (⟨a2, ha2, hpre, _⟩ | ⟨hnone, _⟩)
            · cases ha2
              rw [hs2] at hpre
              cases hpre
            · cases hnone
        · rintro ph2 hph _
          cases hph
          simp only [getBalance_input, hs2, Bool.false_eq_true, if_false]

/-- C1 witness (for the amended claim): an HRP-bearing address that fails
decoding yields the early `null` return, and a non-hex puzzle hash on the
puzzle-hash path yields a send carrying the empty validated hash. -/
theorem getBalance_input_null_iff_witness :
    getBalance_input (fun _ => "") (some "xchabc") none = BalanceInput.returnNull ∧
    getBalance_input (fun _ => "") none (some "zz") =
      BalanceInput.send (validateHashString "zz") :=
  ⟨(getBalance_input_null_iff (fun _ => "") (some "xchabc") none).1.mpr
      (Or.inl ⟨"xchabc", rfl, by decide, rfl⟩),
   (getBalance_input_null_iff (fun _ => "") none (some "zz")).2 "zz" rfl
      (fun a ha => Option.noConfusion ha)⟩

end GreenWeb
